import Mathlib

/-!
Shallow embedding of the tzkt transaction reporter (src/app.py, with the
shared fetch/filter logic also present in src/tzkt.py).

The embedding models:
* `fetch_transactions` (src/app.py lines 27-145): the paginated, retrying
  fetch loop.  The remote API is modelled as an oracle mapping
  (page-iteration index, attempt index) to a response; the outer page loop
  is given explicit fuel because the Python loop `while True:` need not
  terminate for every oracle.  The returned Bool is `true` when the loop
  exited through one of its own `break` conditions and `false` when the
  fuel ran out.
* `process_data` (src/app.py lines 148-210): normalisation of raw records
  into rows plus the per-address metrics.  `pandas.to_datetime` is modelled
  by an abstract parser `parse : String → Option Int`; a `none` result is
  the exception branch that skips the record.
* `calculate_daily_summary` (src/app.py lines 212-351): the three
  aggregation modes.  `Timestamp.dt.date` is modelled by an abstract
  `dateOf : Int → String`.  Group keys are collected with `List.dedup`;
  pandas sorts group keys, which only permutes the per-day rows and is
  irrelevant to every property proved below.
-/

namespace Tzkt

/-- Constant `MAX_RETRIES = 3` (src/app.py line 17). -/
def MAX_RETRIES : Nat := 3

/-- Constant `RETRY_DELAY = 5` seconds (src/app.py line 18). -/
def RETRY_DELAY : Nat := 5

/-- A raw operation record as consumed from the TzKT JSON: every field the
code reads may be absent (`tx.get(...)`). `sender`/`target` stand for
`tx.get('sender', {}).get('address')` / `tx.get('target', {}).get('address')`. -/
structure RawTx where
  id : Int
  hash : Option String := none
  timestamp : Option String := none
  amount : Option Int := none
  sender : Option String := none
  target : Option String := none
deriving DecidableEq, Repr

/-- One HTTP exchange as seen by the retry loop in `fetch_transactions`:
a parsed 2xx body, HTTP 429, another HTTP error `>= 400`, a transport
failure (`requests.exceptions.RequestException`), or an unparsable body
(`json.JSONDecodeError`). -/
inductive Resp where
  | ok (txs : List RawTx)
  | rateLimited
  | httpError
  | netError
  | badJson
deriving DecidableEq, Repr

/-- The per-batch client-side window filter (src/app.py lines 88-94):
`if tx_timestamp >= start_date_iso and tx_timestamp < end_date_iso:
all_transactions.append(tx)`.  A record with a missing timestamp makes the
Python comparison `None >= str` raise `TypeError`, which aborts the batch
loop; the Bool is `false` exactly in that case, and the list holds the
records appended before the abort. -/
def processBatch (s e : String) : List RawTx → List RawTx × Bool
  | [] => ([], true)
  | tx :: rest =>
    match tx.timestamp with
    | none => ([], false)
    | some ts =>
      let r := processBatch s e rest
      if s ≤ ts ∧ ts < e then (tx :: r.1, r.2) else r

/-- How the inner retry loop (src/app.py lines 41-138) for one page ends.
`exhausted`: the loop ended with `success` still false (retry budget spent);
`emptyPage`: a parsed empty body (`if not transactions: break`);
`fullPage raw kept`: a parsed non-empty body whose batch loop completed;
`brokenPage raw kept`: a parsed non-empty body whose batch loop raised
(missing timestamp), leaving `last_id` unchanged. -/
inductive InnerOutcome where
  | exhausted
  | emptyPage
  | fullPage (raw kept : List RawTx)
  | brokenPage (raw kept : List RawTx)
deriving DecidableEq, Repr

/-- The inner retry loop `while not success and retry_count < MAX_RETRIES`
(src/app.py lines 38-138).  `att n` is the response to the `n`-th request of
this page (each loop pass issues exactly one request, and each continuing
pass increments `retry_count`, so the attempt index equals `retry_count` at
the top of the pass).  The first argument is the remaining loop budget
`MAX_RETRIES - retry_count`, the second is `retry_count`.  Returns the
outcome, the number of requests issued, and the list of backoff sleeps
`wait_time = RETRY_DELAY * retry_count` performed (the fixed
`DELAY_BETWEEN_REQUESTS` pacing sleep is not a backoff and is not listed). -/
def innerLoop (s e : String) (att : Nat → Resp) : Nat → Nat → InnerOutcome × Nat × List Nat
  | 0, _ => (.exhausted, 0, [])
  | fuel + 1, rc =>
    match att rc with
    | .rateLimited =>
      -- lines 59-65: retry_count += 1; wait RETRY_DELAY * retry_count; continue
      let r := innerLoop s e att fuel (rc + 1)
      (r.1, r.2.1 + 1, RETRY_DELAY * (rc + 1) :: r.2.2)
    | .httpError =>
      -- lines 66-77: retry while retry_count < MAX_RETRIES - 1, else break
      if rc < MAX_RETRIES - 1 then
        let r := innerLoop s e att fuel (rc + 1)
        (r.1, r.2.1 + 1, RETRY_DELAY * (rc + 1) :: r.2.2)
      else (.exhausted, 1, [])
    | .netError =>
      -- lines 106-116: same policy as an HTTP error
      if rc < MAX_RETRIES - 1 then
        let r := innerLoop s e att fuel (rc + 1)
        (r.1, r.2.1 + 1, RETRY_DELAY * (rc + 1) :: r.2.2)
      else (.exhausted, 1, [])
    | .badJson =>
      -- lines 117-127: same policy as an HTTP error
      if rc < MAX_RETRIES - 1 then
        let r := innerLoop s e att fuel (rc + 1)
        (r.1, r.2.1 + 1, RETRY_DELAY * (rc + 1) :: r.2.2)
      else (.exhausted, 1, [])
    | .ok txs =>
      -- lines 80-104: success = True before the empty check and batch loop
      if txs.isEmpty then (.emptyPage, 1, [])
      else
        let p := processBatch s e txs
        if p.2 then (.fullPage txs p.1, 1, [])
        else
          -- a TypeError in the batch loop lands in `except Exception`
          -- (lines 128-138) with success already True, so the loop exits
          if rc < MAX_RETRIES - 1 then (.brokenPage txs p.1, 1, [RETRY_DELAY * (rc + 1)])
          else (.brokenPage txs p.1, 1, [])

/-- The outer page loop of `fetch_transactions` (src/app.py lines 37-142).
`oracle iter n` answers the `n`-th request of page iteration `iter`.
`acc` is `all_transactions`, `lastId` the pagination cursor.  After a full
page the cursor becomes the id of the last raw record
(`last_id = transactions[-1]['id']`); after a broken batch loop it is left
unchanged.  `if not success or not transactions: break` returns `acc`. -/
def fetchLoop (s e : String) (oracle : Nat → Nat → Resp) :
    Nat → List RawTx → Option Int → Nat → List RawTx × Bool
  | 0, acc, _, _ => (acc, false)
  | fuel + 1, acc, lastId, iter =>
    match (innerLoop s e (oracle iter) MAX_RETRIES 0).1 with
    | .exhausted => (acc, true)
    | .emptyPage => (acc, true)
    | .fullPage raw kept =>
      fetchLoop s e oracle fuel (acc ++ kept) ((raw.getLast?).map RawTx.id) (iter + 1)
    | .brokenPage _ kept =>
      fetchLoop s e oracle fuel (acc ++ kept) lastId (iter + 1)

/-- Model of `fetch_transactions(address, start_date_iso, end_date_iso)`
(src/app.py lines 27-145), starting from `all_transactions = []`,
`last_id = None`.  The address only determines the URL and is absorbed into
the oracle. -/
def fetch_transactions (s e : String) (oracle : Nat → Nat → Resp) (fuel : Nat) :
    List RawTx × Bool :=
  fetchLoop s e oracle fuel [] none 0

/-- A normalised transaction row (one element of `processed_data`,
src/app.py lines 190-199). `ts` is the parsed `Timestamp`. -/
structure Row where
  address : String
  ts : Int
  hash : String
  direction : String
  From : String
  To : String
  amountXTZ : ℚ
  amountMutez : Int
deriving DecidableEq, Repr

/-- The metrics dict of `process_data` (src/app.py lines 205-209). -/
structure Metrics where
  trades : Nat
  volume_xtz : ℚ
  earned_xtz : ℚ
deriving DecidableEq, Repr

/-- Python `x or "N/A"` on an optional string: both a missing value and the
empty string (falsy) are replaced by the default (src/app.py lines 195-196). -/
def pyOr (o : Option String) (d : String) : String :=
  match o with
  | none => d
  | some x => if x = "" then d else x

/-- The direction assignment of `process_data` (src/app.py lines 176-188):
`is_incoming` (`target == target_address`) is tested first, then
`is_outgoing` (`sender == target_address`), else `"UNKNOWN"`.  A missing
sender or target compares unequal to the address (Python `None == str`). -/
def direction (origin : String) (tx : RawTx) : String :=
  if tx.target = some origin then "IN"
  else if tx.sender = some origin then "OUT"
  else "UNKNOWN"

/-- The row appended for one kept record (src/app.py lines 190-199), given
its parsed timestamp `t`.  `Amount (XTZ)` is
`amount_mutez / 1_000_000 if amount_mutez else 0.0`. -/
def mkRow (origin : String) (tx : RawTx) (t : Int) : Row :=
  { address := origin
    ts := t
    hash := tx.hash.getD "N/A"
    direction := direction origin tx
    From := pyOr tx.sender "N/A"
    To := pyOr tx.target "N/A"
    amountXTZ := if tx.amount.getD 0 ≠ 0 then ((tx.amount.getD 0 : Int) : ℚ) / 1000000 else 0
    amountMutez := tx.amount.getD 0 }

/-- The records that survive the two skip checks of `process_data`
(src/app.py lines 166-174): records with a missing timestamp and records
whose timestamp `pd.to_datetime` cannot parse are skipped; a kept record is
paired with its parsed timestamp. -/
def keptTxs (parse : String → Option Int) (txs : List RawTx) : List (RawTx × Int) :=
  txs.filterMap (fun tx => (tx.timestamp.bind parse).map (fun t => (tx, t)))

instance : DecidableRel (fun a b : Row => a.ts ≤ b.ts) :=
  fun a b => inferInstanceAs (Decidable (a.ts ≤ b.ts))

/-- Model of `process_data(transactions, target_address)` (src/app.py lines 148-210).
Empty input returns the empty table and zero metrics (lines 150-151).
Otherwise one row per kept record, the table sorted ascending by timestamp
(`df.sort_values(by="Timestamp")`, line 203), and the metrics accumulated
over exactly the kept records: `trade_count += 1` and
`total_volume_mutez += amount_mutez` for every kept record,
`total_earned_mutez += amount_mutez` only when incoming (lines 179-183). -/
def process_data (txs : List RawTx) (origin : String) (parse : String → Option Int) :
    List Row × Metrics :=
  if txs.isEmpty then ([], ⟨0, 0, 0⟩)
  else
    let kept := keptTxs parse txs
    let rows := kept.map (fun p => mkRow origin p.1 p.2)
    let df := List.insertionSort (fun a b : Row => a.ts ≤ b.ts) rows
    let volMutez : Int := (kept.map (fun p => p.1.amount.getD 0)).sum
    let earnedMutez : Int :=
      (kept.map (fun p => if p.1.target = some origin then p.1.amount.getD 0 else 0)).sum
    (df, ⟨kept.length, (volMutez : ℚ) / 1000000, (earnedMutez : ℚ) / 1000000⟩)

/-- The marketplace-fee address constant `mp_fees_address`
(src/app.py line 237). -/
def mpFeesAddress : String := "tz1cY5tTfFb5c4Q9VyJ895y6eLk1ohXXqwVD"

/-- Model of `.round(6)`: rounding to 6 fractional decimal digits, over ℚ.
The exact tie-breaking convention is immaterial to every statement below:
no value rounded in a proof or evaluated in a witness sits on a tie. -/
def round6 (q : ℚ) : ℚ := ((round (q * 1000000) : ℤ) : ℚ) / 1000000

/-- The `sum_incoming` aggregation (src/app.py lines 229-231): the sum of
`Amount (XTZ)` over the rows of the group whose `Direction` is `'IN'`
(an empty subset sums to 0, as does `subset.sum()` guarded by the
`if not subset.empty else 0.0`). -/
def sumIncoming (rows : List Row) : ℚ :=
  ((rows.filter (fun r => r.direction = "IN")).map Row.amountXTZ).sum

/-- The `sum_outgoing` aggregation (src/app.py lines 233-235). -/
def sumOutgoing (rows : List Row) : ℚ :=
  ((rows.filter (fun r => r.direction = "OUT")).map Row.amountXTZ).sum

/-- A row of the fee-derived-volume summary (src/app.py lines 240-263):
columns `Date, Transactions, Skurpy_Cut, Total_Volume`. -/
structure FeeRow where
  date : String
  transactions : Nat
  cut : ℚ
  volume : ℚ
deriving DecidableEq, Repr

/-- A row of the multi-address summary (src/app.py lines 265-323):
columns `Date, Address, Transactions, XTZ_Received, XTZ_Sent,
Net XTZ Change`. -/
structure MultiRow where
  date : String
  addr : String
  transactions : Nat
  recv : ℚ
  sent : ℚ
  net : ℚ
deriving DecidableEq, Repr

/-- A row of the standard single-address summary (src/app.py
lines 325-349). -/
structure StdRow where
  date : String
  transactions : Nat
  recv : ℚ
  sent : ℚ
  net : ℚ
deriving DecidableEq, Repr

/-- The fee-mode per-day rows (src/app.py lines 242-254): group by `Date`;
`Transactions` counts the group's rows (`('Hash', 'count')`; the hash
column never holds a null), `Total_Volume = (Skurpy_Cut / 0.03).round(6)`
is computed from the raw cut, after which `Skurpy_Cut` itself is rounded. -/
def feeDayRows (dateOf : Int → String) (rows : List Row) : List FeeRow :=
  ((rows.map (fun r => dateOf r.ts)).dedup).map (fun d =>
    let g := rows.filter (fun r => dateOf r.ts = d)
    let cutRaw := sumIncoming g
    { date := d
      transactions := g.length
      cut := round6 cutRaw
      volume := round6 (cutRaw / (3 / 100)) })

/-- The fee-mode `TOTAL` row (src/app.py lines 257-262): sums taken over
the already rounded per-day columns, each sum rounded again. -/
def feeTotalRow (dateOf : Int → String) (rows : List Row) : FeeRow :=
  let dr := feeDayRows dateOf rows
  { date := "TOTAL"
    transactions := (dr.map FeeRow.transactions).sum
    cut := round6 ((dr.map FeeRow.cut).sum)
    volume := round6 ((dr.map FeeRow.volume).sum) }

/-- The multi-address per-day rows (src/app.py lines 267-279): group by
`(Date, Address)`; `Net XTZ Change` is computed from the raw sums, then
all three amount columns are rounded. -/
def multiDayRows (dateOf : Int → String) (rows : List Row) : List MultiRow :=
  ((rows.map (fun r => (dateOf r.ts, r.address))).dedup).map (fun k =>
    let g := rows.filter (fun r => (dateOf r.ts, r.address) = k)
    let recvRaw := sumIncoming g
    let sentRaw := sumOutgoing g
    { date := k.1
      addr := k.2
      transactions := g.length
      recv := round6 recvRaw
      sent := round6 sentRaw
      net := round6 (recvRaw - sentRaw) })

/-- The per-address `TOTAL` rows (src/app.py lines 282-291): group the
whole table by `Address` alone, date label literal `'TOTAL'`. -/
def addressTotalRows (rows : List Row) : List MultiRow :=
  ((rows.map Row.address).dedup).map (fun a =>
    let g := rows.filter (fun r => r.address = a)
    let recvRaw := sumIncoming g
    let sentRaw := sumOutgoing g
    { date := "TOTAL"
      addr := a
      transactions := g.length
      recv := round6 recvRaw
      sent := round6 sentRaw
      net := round6 (recvRaw - sentRaw) })

/-- The `GRAND TOTAL` row (src/app.py lines 294-312).  The code computes
`grand_total_metrics = df_copy.agg(Transactions=('Hash', 'count'),
XTZ_Received=('Amount (XTZ)', sum_incoming), XTZ_Sent=('Amount (XTZ)',
sum_outgoing))`.  Pandas named aggregation on a DataFrame yields a
DataFrame whose COLUMNS are the source columns (`'Hash'`,
`'Amount (XTZ)'`) and whose index holds the aggregation names, so the
subsequent column lookups `grand_total_metrics.get('Transactions',
pd.Series([0]))` (and likewise for the two amounts) never find a column of
that name and always return the supplied default.  Every numeric field of
the grand-total row is therefore the constant 0 regardless of the data. -/
def grandTotalRow : MultiRow :=
  { date := "GRAND TOTAL", addr := "", transactions := 0, recv := 0, sent := 0, net := 0 }

/-- The multi-address summary table (src/app.py lines 317-323): day rows,
then per-address totals, then the grand total. -/
def multiSummary (dateOf : Int → String) (rows : List Row) : List MultiRow :=
  multiDayRows dateOf rows ++ addressTotalRows rows ++ [grandTotalRow]

/-- The standard per-day rows (src/app.py lines 327-339). -/
def stdDayRows (dateOf : Int → String) (rows : List Row) : List StdRow :=
  ((rows.map (fun r => dateOf r.ts)).dedup).map (fun d =>
    let g := rows.filter (fun r => dateOf r.ts = d)
    let recvRaw := sumIncoming g
    let sentRaw := sumOutgoing g
    { date := d
      transactions := g.length
      recv := round6 recvRaw
      sent := round6 sentRaw
      net := round6 (recvRaw - sentRaw) })

/-- The standard `TOTAL` row (src/app.py lines 342-348): sums of the
already rounded per-day columns, rounded again. -/
def stdTotalRow (dateOf : Int → String) (rows : List Row) : StdRow :=
  let dr := stdDayRows dateOf rows
  { date := "TOTAL"
    transactions := (dr.map StdRow.transactions).sum
    recv := round6 ((dr.map StdRow.recv).sum)
    sent := round6 ((dr.map StdRow.sent).sum)
    net := round6 ((dr.map StdRow.recv).sum - (dr.map StdRow.sent).sum) }

/-- The result of `calculate_daily_summary`: an empty table
(`pd.DataFrame()`) or a table of one of the three mode-specific shapes. -/
inductive Summary where
  | empty
  | fee (rows : List FeeRow)
  | multi (rows : List MultiRow)
  | std (rows : List StdRow)
deriving DecidableEq, Repr

/-- Model of `calculate_daily_summary(df, addresses)` (src/app.py lines 212-351).
An empty input table returns the empty table (lines 214-223; the coercion
and `dropna` on the `Timestamp` column are the identity on rows that are
already typed).  Mode selection (lines 238, 265): fee mode when
`addresses` is exactly the one marketplace-fee address, multi mode when it
holds more than one address, standard mode otherwise (also when
`addresses` is empty, its Python falsy case).  The `if daily_summary.empty`
guards after each grouping (lines 247, 273, 333) are kept. -/
def calculate_daily_summary (rows : List Row) (addresses : List String)
    (dateOf : Int → String) : Summary :=
  if rows.isEmpty then .empty
  else if addresses = [mpFeesAddress] then
    if (feeDayRows dateOf rows).isEmpty then .empty
    else .fee (feeDayRows dateOf rows ++ [feeTotalRow dateOf rows])
  else if addresses.length > 1 then
    if (multiDayRows dateOf rows).isEmpty then .empty
    else .multi (multiSummary dateOf rows)
  else
    if (stdDayRows dateOf rows).isEmpty then .empty
    else .std (stdDayRows dateOf rows ++ [stdTotalRow dateOf rows])

/-! ### Concrete inputs used by witnesses and counterexamples -/

/-- A well-formed raw record inside the window `["a", "z")` used below. -/
def txW : RawTx :=
  { id := 1, hash := some "h", timestamp := some "m", amount := some 1000000,
    sender := some "A", target := some "X" }

/-- An oracle whose every response is the one-record page `[txW]`. -/
def orcW : Nat → Nat → Resp := fun _ _ => .ok [txW]

/-- A raw record whose target address is the empty string. -/
def txE : RawTx :=
  { id := 1, hash := some "h", timestamp := some "t", amount := some 1000000,
    sender := some "A", target := some "" }

/-- A raw record incoming to address `"X"`. -/
def txX : RawTx :=
  { id := 2, hash := some "h2", timestamp := some "t", amount := some 2000000,
    sender := some "A", target := some "X" }

/-- A parser accepting every timestamp string, at instant 0. -/
def parse0 : String → Option Int := fun _ => some 0

/-- An incoming 1-XTZ row of address `"A"`. -/
def rA : Row :=
  { address := "A", ts := 0, hash := "h1", direction := "IN", From := "f",
    To := "A", amountXTZ := 1, amountMutez := 1000000 }

/-- An incoming 1-XTZ row of address `"B"`. -/
def rB : Row :=
  { address := "B", ts := 0, hash := "h2", direction := "IN", From := "f",
    To := "B", amountXTZ := 1, amountMutez := 1000000 }

/-- A date map sending every instant to one calendar day. -/
def dOne : Int → String := fun _ => "2024-01-01"

/-- A date map distinguishing the days of instants 0 and 1. -/
def dTwo : Int → String := fun t => if t = 0 then "d0" else "d1"

/-- The fee-mode day row produced for the one-row table `[rd1]`. -/
def fr1 : FeeRow := ⟨"d0", 1, 1 / 1000000, 33 / 1000000⟩

/-- A 1-mutez incoming row of the marketplace-fee address, day `"0"`. -/
def rd1 : Row :=
  { address := mpFeesAddress, ts := 0, hash := "h1", direction := "IN", From := "f",
    To := mpFeesAddress, amountXTZ := 1 / 1000000, amountMutez := 1 }

/-- A 1-mutez incoming row of the marketplace-fee address, day `"1"`. -/
def rd2 : Row :=
  { address := mpFeesAddress, ts := 1, hash := "h2", direction := "IN", From := "f",
    To := mpFeesAddress, amountXTZ := 1 / 1000000, amountMutez := 1 }

/-! ### Helper lemmas about the fetch loop -/

/-- The inner retry loop issues at most `fuel` requests. -/
theorem innerLoop_requests_le (s e : String) (att : Nat → Resp) :
    ∀ fuel rc, (innerLoop s e att fuel rc).2.1 ≤ fuel := by
  intro fuel
  induction fuel with
  | zero => intro rc; simp [innerLoop]
  | succ n ih =>
    intro rc
    cases h : att rc <;> simp only [innerLoop, h]
    case ok txs =>
      split
      · exact Nat.succ_le_succ (Nat.zero_le n)
      · split
        · exact Nat.succ_le_succ (Nat.zero_le n)
        · split <;> exact Nat.succ_le_succ (Nat.zero_le n)
    case rateLimited => exact Nat.succ_le_succ (ih (rc + 1))
    case httpError =>
      split
      · exact Nat.succ_le_succ (ih (rc + 1))
      · exact Nat.succ_le_succ (Nat.zero_le n)
    case netError =>
      split
      · exact Nat.succ_le_succ (ih (rc + 1))
      · exact Nat.succ_le_succ (Nat.zero_le n)
    case badJson =>
      split
      · exact Nat.succ_le_succ (ih (rc + 1))
      · exact Nat.succ_le_succ (Nat.zero_le n)

/-- Every recorded backoff sleep of the inner retry loop, counted from
`retry_count = rc`, is `RETRY_DELAY * (rc + i + 1)`: the base delay times
the (1-based) retry attempt number. -/
theorem innerLoop_sleeps_eq (s e : String) (att : Nat → Resp) :
    ∀ fuel rc i, i < (innerLoop s e att fuel rc).2.2.length →
      (innerLoop s e att fuel rc).2.2.getD i 0 = RETRY_DELAY * (rc + i + 1) := by
  intro fuel
  induction fuel with
  | zero => intro rc i hi; simp [innerLoop] at hi
  | succ n ih =>
    intro rc i hi
    cases h : att rc <;> simp only [innerLoop, h] at hi ⊢
    case ok txs =>
      cases he : txs.isEmpty with
      | true => simp [he] at hi
      | false =>
        cases hp : (processBatch s e txs).2 with
        | true => simp [he, hp] at hi
        | false =>
          by_cases hc : rc < MAX_RETRIES - 1
          · cases i with
            | zero => simp [he, hp, hc]
            | succ j => simp [he, hp, hc] at hi
          · simp [he, hp, hc] at hi
    case rateLimited =>
      cases i with
      | zero => rw [List.getD_cons_zero]
      | succ j =>
        have hj : j < (innerLoop s e att n (rc + 1)).2.2.length := by
          simpa using hi
        rw [List.getD_cons_succ, ih (rc + 1) j hj]
        congr 1
        omega
    case httpError =>
      by_cases hc : rc < MAX_RETRIES - 1
      · rw [if_pos hc] at hi ⊢
        cases i with
        | zero => rw [List.getD_cons_zero]
        | succ j =>
          have hj : j < (innerLoop s e att n (rc + 1)).2.2.length := by
            simpa using hi
          rw [List.getD_cons_succ, ih (rc + 1) j hj]
          congr 1
          omega
      · rw [if_neg hc] at hi
        simp at hi
    case netError =>
      by_cases hc : rc < MAX_RETRIES - 1
      · rw [if_pos hc] at hi ⊢
        cases i with
        | zero => rw [List.getD_cons_zero]
        | succ j =>
          have hj : j < (innerLoop s e att n (rc + 1)).2.2.length := by
            simpa using hi
          rw [List.getD_cons_succ, ih (rc + 1) j hj]
          congr 1
          omega
      · rw [if_neg hc] at hi
        simp at hi
    case badJson =>
      by_cases hc : rc < MAX_RETRIES - 1
      · rw [if_pos hc] at hi ⊢
        cases i with
        | zero => rw [List.getD_cons_zero]
        | succ j =>
          have hj : j < (innerLoop s e att n (rc + 1)).2.2.length := by
            simpa using hi
          rw [List.getD_cons_succ, ih (rc + 1) j hj]
          congr 1
          omega
      · rw [if_neg hc] at hi
        simp at hi

/-- Equation lemma: the batch filter on a record with no timestamp. -/
theorem processBatch_cons_none (s e : String) (hd : RawTx) (tl : List RawTx)
    (h : hd.timestamp = none) : processBatch s e (hd :: tl) = ([], false) := by
  rw [processBatch, h]

/-- Equation lemma: the batch filter on a record with a timestamp. -/
theorem processBatch_cons_some (s e ts : String) (hd : RawTx) (tl : List RawTx)
    (h : hd.timestamp = some ts) :
    processBatch s e (hd :: tl) =
      (if s ≤ ts ∧ ts < e then (hd :: (processBatch s e tl).1, (processBatch s e tl).2)
        else processBatch s e tl) := by
  rw [processBatch, h]

/-- Every record kept by the batch filter carries a timestamp inside the
half-open window. -/
theorem processBatch_mem_window (s e : String) :
    ∀ l tx, tx ∈ (processBatch s e l).1 →
      ∃ t, tx.timestamp = some t ∧ s ≤ t ∧ t < e := by
  intro l
  induction l with
  | nil => intro tx h; simp [processBatch] at h
  | cons hd tl ih =>
    intro tx h
    cases hts : hd.timestamp with
    | none => rw [processBatch_cons_none s e hd tl hts] at h; simp at h
    | some ts =>
      rw [processBatch_cons_some s e ts hd tl hts] at h
      by_cases hw : s ≤ ts ∧ ts < e
      · rw [if_pos hw] at h
        rcases List.mem_cons.mp h with rfl | h2
        · exact ⟨ts, hts, hw.1, hw.2⟩
        · exact ih tx h2
      · rw [if_neg hw] at h
        exact ih tx h

/-- If the batch loop completed (no missing timestamp), every record of the
batch whose timestamp lies inside the window is kept. -/
theorem processBatch_complete (s e : String) :
    ∀ l, (processBatch s e l).2 = true →
      ∀ tx ∈ l, ∀ t, tx.timestamp = some t → s ≤ t → t < e →
        tx ∈ (processBatch s e l).1 := by
  intro l
  induction l with
  | nil => intro _ tx h; simp at h
  | cons hd tl ih =>
    intro hok tx hmem t hts hs he
    cases hhd : hd.timestamp with
    | none =>
      rw [processBatch_cons_none s e hd tl hhd] at hok
      simp at hok
    | some ts0 =>
      rw [processBatch_cons_some s e ts0 hd tl hhd] at hok ⊢
      have hok2 : (processBatch s e tl).2 = true := by
        by_cases hw : s ≤ ts0 ∧ ts0 < e
        · rwa [if_pos hw] at hok
        · rwa [if_neg hw] at hok
      rcases List.mem_cons.mp hmem with rfl | hmem2
      · rw [hhd] at hts
        injection hts with hts2
        subst hts2
        rw [if_pos ⟨hs, he⟩]
        exact List.mem_cons_self _ _
      · have hmemtl := ih hok2 tx hmem2 t hts hs he
        by_cases hw : s ≤ ts0 ∧ ts0 < e
        · rw [if_pos hw]
          exact List.mem_cons_of_mem _ hmemtl
        · rwa [if_neg hw]

/-- Inversion of the inner loop: a `fullPage`/`brokenPage` outcome carries
exactly the list kept by the batch filter of its raw page, and a full page
is one whose batch loop completed. -/
theorem innerLoop_page_inv (s e : String) (att : Nat → Resp) :
    ∀ fuel rc raw kept,
      ((innerLoop s e att fuel rc).1 = .fullPage raw kept ∨
        (innerLoop s e att fuel rc).1 = .brokenPage raw kept) →
      kept = (processBatch s e raw).1 ∧
        ((innerLoop s e att fuel rc).1 = .fullPage raw kept →
          (processBatch s e raw).2 = true) := by
  intro fuel
  induction fuel with
  | zero =>
    intro rc raw kept h
    rcases h with h | h <;> simp [innerLoop] at h
  | succ n ih =>
    intro rc raw kept h
    cases hresp : att rc <;> simp only [innerLoop, hresp] at h ⊢
    case rateLimited => exact ih (rc + 1) raw kept h
    case httpError =>
      by_cases hc : rc < MAX_RETRIES - 1
      · rw [if_pos hc] at h ⊢
        exact ih (rc + 1) raw kept h
      · rw [if_neg hc] at h ⊢
        rcases h with h | h <;> simp at h
    case netError =>
      by_cases hc : rc < MAX_RETRIES - 1
      · rw [if_pos hc] at h ⊢
        exact ih (rc + 1) raw kept h
      · rw [if_neg hc] at h ⊢
        rcases h with h | h <;> simp at h
    case badJson =>
      by_cases hc : rc < MAX_RETRIES - 1
      · rw [if_pos hc] at h ⊢
        exact ih (rc + 1) raw kept h
      · rw [if_neg hc] at h ⊢
        rcases h with h | h <;> simp at h
    case ok txs =>
      by_cases he : txs.isEmpty
      · rw [if_pos he] at h
        rcases h with h | h <;> simp at h
      · rw [if_neg he] at h ⊢
        by_cases hp : (processBatch s e txs).2
        · rw [if_pos hp] at h ⊢
          rcases h with h | h
          · simp only [InnerOutcome.fullPage.injEq] at h
            obtain ⟨rfl, rfl⟩ := h
            exact ⟨rfl, fun _ => hp⟩
          · simp at h
        · rw [if_neg hp] at h ⊢
          by_cases hc : rc < MAX_RETRIES - 1
          · rw [if_pos hc] at h ⊢
            rcases h with h | h
            · simp at h
            · simp only [InnerOutcome.brokenPage.injEq] at h
              obtain ⟨rfl, rfl⟩ := h
              refine ⟨rfl, fun hfull => ?_⟩
              simp at hfull
          · rw [if_neg hc] at h ⊢
            rcases h with h | h
            · simp at h
            · simp only [InnerOutcome.brokenPage.injEq] at h
              obtain ⟨rfl, rfl⟩ := h
              refine ⟨rfl, fun hfull => ?_⟩
              simp at hfull

/-- The outer loop only ever appends: everything already in
`all_transactions` is in the returned list. -/
theorem fetchLoop_acc_mem (s e : String) (oracle : Nat → Nat → Resp) :
    ∀ fuel acc lastId iter tx, tx ∈ acc →
      tx ∈ (fetchLoop s e oracle fuel acc lastId iter).1 := by
  intro fuel
  induction fuel with
  | zero =>
    intro acc lastId iter tx h
    exact h
  | succ n ih =>
    intro acc lastId iter tx h
    rw [fetchLoop]
    cases houtc : (innerLoop s e (oracle iter) MAX_RETRIES 0).1 with
    | exhausted => exact h
    | emptyPage => exact h
    | fullPage raw kept => exact ih _ _ _ tx (List.mem_append_left _ h)
    | brokenPage raw kept => exact ih _ _ _ tx (List.mem_append_left _ h)

/-- If every accumulated record has an in-window timestamp, so does every
record in the final result: pages only contribute their filtered records. -/
theorem fetchLoop_window (s e : String) (oracle : Nat → Nat → Resp) :
    ∀ fuel acc lastId iter,
      (∀ tx ∈ acc, ∃ t, tx.timestamp = some t ∧ s ≤ t ∧ t < e) →
      ∀ tx ∈ (fetchLoop s e oracle fuel acc lastId iter).1,
        ∃ t, tx.timestamp = some t ∧ s ≤ t ∧ t < e := by
  intro fuel
  induction fuel with
  | zero =>
    intro acc lastId iter hacc tx h
    exact hacc tx h
  | succ n ih =>
    intro acc lastId iter hacc tx h
    rw [fetchLoop] at h
    cases houtc : (innerLoop s e (oracle iter) MAX_RETRIES 0).1 with
    | exhausted =>
      rw [houtc] at h
      exact hacc tx h
    | emptyPage =>
      rw [houtc] at h
      exact hacc tx h
    | fullPage raw kept =>
      rw [houtc] at h
      refine ih _ _ _ ?_ tx h
      intro ty hty
      rcases List.mem_append.mp hty with h1 | h2
      · exact hacc ty h1
      · have hkept :=
          (innerLoop_page_inv s e (oracle iter) MAX_RETRIES 0 raw kept (Or.inl houtc)).1
        exact processBatch_mem_window s e raw ty (hkept ▸ h2)
    | brokenPage raw kept =>
      rw [houtc] at h
      refine ih _ _ _ ?_ tx h
      intro ty hty
      rcases List.mem_append.mp hty with h1 | h2
      · exact hacc ty h1
      · have hkept :=
          (innerLoop_page_inv s e (oracle iter) MAX_RETRIES 0 raw kept (Or.inr houtc)).1
        exact processBatch_mem_window s e raw ty (hkept ▸ h2)

/-! ### Claim theorems: the fetch loop -/

/-- Claim C3: if every HTTP request returns status 429, `fetch_transactions`
terminates — for any fuel of at least one page the loop exits through its
own break right after the first page's retry budget is spent — after exactly
`MAX_RETRIES` request attempts for the first page, and it returns the empty
transaction list. -/
theorem fetch_allRateLimited_terminates (s e : String) (fuel : Nat) (h : 1 ≤ fuel) :
    fetch_transactions s e (fun _ _ => Resp.rateLimited) fuel = ([], true) ∧
    (innerLoop s e (fun _ => Resp.rateLimited) MAX_RETRIES 0).2.1 = MAX_RETRIES := by
  constructor
  · obtain ⟨n, rfl⟩ : ∃ n, fuel = n + 1 := ⟨fuel - 1, by omega⟩
    rfl
  · rfl

/-- Witness for C3 at fuel 1. -/
theorem fetch_allRateLimited_terminates_witness :
    fetch_transactions "a" "b" (fun _ _ => Resp.rateLimited) 1 = ([], true) ∧
    (innerLoop "a" "b" (fun _ => Resp.rateLimited) MAX_RETRIES 0).2.1 = MAX_RETRIES :=
  fetch_allRateLimited_terminates "a" "b" 1 (by decide)

/-- Claim C4: for any sequence of page responses the retry loop issues at
most `MAX_RETRIES` requests per page; every backoff sleep it performs
equals `RETRY_DELAY` times the (1-based) retry attempt number; and when a
page's retry budget is exhausted the fetch returns the records collected so
far as a partial result rather than raising. -/
theorem fetch_retry_backoff_policy (s e : String) (att : Nat → Resp) :
    (innerLoop s e att MAX_RETRIES 0).2.1 ≤ MAX_RETRIES ∧
    (∀ i, i < (innerLoop s e att MAX_RETRIES 0).2.2.length →
      (innerLoop s e att MAX_RETRIES 0).2.2.getD i 0 = RETRY_DELAY * (i + 1)) ∧
    (∀ oracle fuel acc lastId iter,
      (innerLoop s e (oracle iter) MAX_RETRIES 0).1 = InnerOutcome.exhausted →
      fetchLoop s e oracle (fuel + 1) acc lastId iter = (acc, true)) := by
  refine ⟨innerLoop_requests_le s e att MAX_RETRIES 0, fun i hi => ?_, ?_⟩
  · simpa using innerLoop_sleeps_eq s e att MAX_RETRIES 0 i hi
  · intro oracle fuel acc lastId iter hex
    rw [fetchLoop, hex]

/-- Witness for C4 on an oracle whose every response is an HTTP error. -/
theorem fetch_retry_backoff_policy_witness :
    ((innerLoop "a" "b" (fun _ => Resp.httpError) MAX_RETRIES 0).2.2.getD 0 0 =
      RETRY_DELAY * (0 + 1)) ∧
    fetchLoop "a" "b" (fun _ _ => Resp.httpError) 1 [] none 0 = ([], true) :=
  ⟨(fetch_retry_backoff_policy "a" "b" (fun _ => Resp.httpError)).2.1 0 (by decide),
    (fetch_retry_backoff_policy "a" "b" (fun _ => Resp.httpError)).2.2
      (fun _ _ => Resp.httpError) 0 [] none 0 (by decide)⟩

/-- Claim C6: every record in the list returned by `fetch_transactions` has
a timestamp `t` with `s ≤ t < e`, and every record of a successfully
fetched page whose timestamp lies inside the window is kept in the returned
list. -/
theorem fetch_window_soundness (s e : String) :
    (∀ oracle fuel tx, tx ∈ (fetch_transactions s e oracle fuel).1 →
      ∃ t, tx.timestamp = some t ∧ s ≤ t ∧ t < e) ∧
    (∀ oracle fuel acc lastId iter raw kept,
      (innerLoop s e (oracle iter) MAX_RETRIES 0).1 = InnerOutcome.fullPage raw kept →
      ∀ tx ∈ raw, ∀ t, tx.timestamp = some t → s ≤ t → t < e →
        tx ∈ (fetchLoop s e oracle (fuel + 1) acc lastId iter).1) := by
  constructor
  · intro oracle fuel tx h
    refine fetchLoop_window s e oracle fuel [] none 0 ?_ tx h
    intro ty hty
    simp at hty
  · intro oracle fuel acc lastId iter raw kept hfull tx hmem t hts hs he
    have hinv := innerLoop_page_inv s e (oracle iter) MAX_RETRIES 0 raw kept (Or.inl hfull)
    have hk : tx ∈ kept := by
      rw [hinv.1]
      exact processBatch_complete s e raw (hinv.2 hfull) tx hmem t hts hs he
    have hres := fetchLoop_acc_mem s e oracle fuel (acc ++ kept)
        ((raw.getLast?).map RawTx.id) (iter + 1) tx (List.mem_append_right _ hk)
    rw [fetchLoop, hfull]
    exact hres

/-- The concrete window facts for `txW` (string order via character lists,
which the kernel can evaluate). -/
theorem txW_le : ("a" : String) ≤ "m" := by
  rw [String.le_iff_toList_le]
  decide

/-- The concrete upper window fact for `txW`. -/
theorem txW_lt : ("m" : String) < "z" := by
  rw [String.lt_iff_toList_lt]
  decide

/-- Evaluating the batch filter on the one-record page `[txW]`. -/
theorem processBatch_txW : processBatch "a" "z" [txW] = ([txW], true) := by
  rw [processBatch_cons_some "a" "z" "m" txW [] rfl, if_pos ⟨txW_le, txW_lt⟩]
  rfl

/-- Evaluating the inner loop on the one-record page `[txW]`. -/
theorem innerLoop_txW :
    innerLoop "a" "z" (orcW 0) MAX_RETRIES 0 = (.fullPage [txW] [txW], 1, []) := by
  simp [innerLoop, orcW, processBatch_txW, MAX_RETRIES]

/-- Evaluating the fetch on the oracle `orcW` with fuel 1. -/
theorem fetch_txW : fetch_transactions "a" "z" orcW 1 = ([txW], false) := by
  rw [fetch_transactions]
  rw [show (1 : Nat) = 0 + 1 from rfl, fetchLoop, innerLoop_txW]
  rfl

/-- Witness for C6 on a one-record page inside the window. -/
theorem fetch_window_soundness_witness :
    (∃ t, txW.timestamp = some t ∧ "a" ≤ t ∧ t < "z") ∧
    txW ∈ (fetchLoop "a" "z" orcW 1 [] none 0).1 :=
  ⟨(fetch_window_soundness "a" "z").1 orcW 1 txW
      (by rw [fetch_txW]; exact List.mem_singleton_self txW),
    (fetch_window_soundness "a" "z").2 orcW 0 [] none 0 [txW] [txW]
      (by rw [innerLoop_txW]) txW (List.mem_singleton_self txW) "m" rfl txW_le txW_lt⟩

/-! ### Helper lemmas about process_data -/

/-- A row is in the table produced by `process_data` exactly when it is the
row built from one of the kept records. -/
theorem process_data_mem (txs : List RawTx) (origin : String)
    (parse : String → Option Int) (r : Row) :
    r ∈ (process_data txs origin parse).1 ↔
      ∃ p ∈ keptTxs parse txs, mkRow origin p.1 p.2 = r := by
  unfold process_data
  by_cases h : txs.isEmpty
  · rw [if_pos h]
    obtain rfl : txs = [] := List.isEmpty_iff.mp h
    simp [keptTxs]
  · rw [if_neg h]
    dsimp only
    rw [List.Perm.mem_iff (List.perm_insertionSort _ _)]
    simp [List.mem_map]

/-- The direction column is `"IN"` exactly when the record's target is the
origin address. -/
theorem direction_in_iff (origin : String) (tx : RawTx) :
    direction origin tx = "IN" ↔ tx.target = some origin := by
  unfold direction
  split_ifs with h1 h2 <;> simp [*]

/-- The direction column is `"OUT"` exactly when the record's sender is the
origin address and its target is not. -/
theorem direction_out_iff (origin : String) (tx : RawTx) :
    direction origin tx = "OUT" ↔ tx.sender = some origin ∧ tx.target ≠ some origin := by
  unfold direction
  split_ifs with h1 h2 <;> simp [*]

/-- Python `x or d` on a present non-empty string is the string itself. -/
theorem pyOr_some_ne (x d : String) (h : x ≠ "") : pyOr (some x) d = x := by
  simp [pyOr, h]

/-- Summing the major-unit images of a list of mutez amounts equals the
major-unit image of their sum. -/
theorem sum_div_cast (l : List Int) :
    (l.map (fun a : Int => ((a : ℚ)) / 1000000)).sum = ((l.sum : Int) : ℚ) / 1000000 := by
  induction l with
  | nil => simp
  | cons a t ih =>
    rw [List.map_cons, List.sum_cons, ih, List.sum_cons, Int.cast_add, add_div]

/-! ### Claim theorems: process_data -/

/-- Claim C5 counterexample: with the empty string as origin address and a
record whose target address is the empty string, `process_data` emits a row
with direction `"IN"` whose `To` field is the `"N/A"` sentinel, not the
origin address (Python `target or "N/A"` treats the empty string as falsy). -/
theorem process_direction_counterexample :
    ¬ (∀ r ∈ (process_data [txE] "" parse0).1,
        (r.direction = "IN" → r.To = "") ∧ (r.direction = "OUT" → r.From = "")) := by
  intro hall
  exact absurd ((hall (mkRow "" txE 0) (List.mem_singleton_self _)).1 rfl) (by decide)

/-- Claim C5 (amended: the origin address is non-empty, as it is for every
address the application fetches): for every row, direction `"IN"` implies
the `To` field equals the origin address, and direction `"OUT"` implies the
`From` field equals the origin address. -/
theorem process_direction_consistency (txs : List RawTx) (origin : String)
    (parse : String → Option Int) (h : origin ≠ "") :
    ∀ r ∈ (process_data txs origin parse).1,
      (r.direction = "IN" → r.To = origin) ∧ (r.direction = "OUT" → r.From = origin) := by
  intro r hr
  rcases (process_data_mem txs origin parse r).1 hr with ⟨p, hp, rfl⟩
  constructor
  · intro hdir
    have ht : p.1.target = some origin := (direction_in_iff origin p.1).1 hdir
    show pyOr p.1.target "N/A" = origin
    rw [ht]
    exact pyOr_some_ne origin "N/A" h
  · intro hdir
    have hs : p.1.sender = some origin := ((direction_out_iff origin p.1).1 hdir).1
    show pyOr p.1.sender "N/A" = origin
    rw [hs]
    exact pyOr_some_ne origin "N/A" h

/-- Witness for the amended C5 at a concrete incoming record. -/
theorem process_direction_consistency_witness :
    ("X" : String) ≠ "" ∧ (mkRow "X" txX 0).To = "X" :=
  ⟨by decide,
    (process_direction_consistency [txX] "X" parse0 (by decide) (mkRow "X" txX 0)
      (List.mem_singleton_self _)).1 rfl⟩

/-- Claim C7: for every row of the normalised table, the major-unit amount
equals the minor-unit (mutez) amount divided by 1,000,000 exactly, in
rational arithmetic — including when the raw amount field is absent or
zero. -/
theorem process_amount_exact (txs : List RawTx) (origin : String)
    (parse : String → Option Int) :
    ∀ r ∈ (process_data txs origin parse).1,
      r.amountXTZ = ((r.amountMutez : Int) : ℚ) / 1000000 := by
  intro r hr
  rcases (process_data_mem txs origin parse r).1 hr with ⟨p, hp, rfl⟩
  show (if p.1.amount.getD 0 ≠ 0 then ((p.1.amount.getD 0 : Int) : ℚ) / 1000000 else 0) =
    ((p.1.amount.getD 0 : Int) : ℚ) / 1000000
  split_ifs with h0
  · rfl
  · rw [not_not] at h0
    rw [h0]
    simp

/-- Witness for C7 at a concrete record. -/
theorem process_amount_exact_witness :
    (mkRow "X" txX 0).amountXTZ = (((mkRow "X" txX 0).amountMutez : Int) : ℚ) / 1000000 :=
  process_amount_exact [txX] "X" parse0 (mkRow "X" txX 0) (List.mem_singleton_self _)

/-- Claim C9: the metrics of `process_data` agree with its table — the trade
count equals the number of rows and the volume equals the sum of the rows'
major-unit amounts, so records skipped for a missing or unparsable
timestamp contribute neither a row, nor a trade, nor volume. -/
theorem process_metrics_consistency (txs : List RawTx) (origin : String)
    (parse : String → Option Int) :
    (process_data txs origin parse).2.trades = (process_data txs origin parse).1.length ∧
    (process_data txs origin parse).2.volume_xtz =
      ((process_data txs origin parse).1.map Row.amountXTZ).sum := by
  unfold process_data
  by_cases h : txs.isEmpty
  · rw [if_pos h]
    simp
  · rw [if_neg h]
    dsimp only
    constructor
    · rw [List.Perm.length_eq (List.perm_insertionSort _ _)]
      rw [List.length_map]
    · rw [List.Perm.sum_eq ((List.perm_insertionSort _ _).map Row.amountXTZ)]
      have hmaps : ((keptTxs parse txs).map (fun p => mkRow origin p.1 p.2)).map
            Row.amountXTZ =
          ((keptTxs parse txs).map (fun p => p.1.amount.getD 0)).map
            (fun a : Int => ((a : ℚ)) / 1000000) := by
        rw [List.map_map, List.map_map]
        refine List.map_congr_left ?_
        intro p hp
        show (if p.1.amount.getD 0 ≠ 0 then ((p.1.amount.getD 0 : Int) : ℚ) / 1000000
            else 0) = ((p.1.amount.getD 0 : Int) : ℚ) / 1000000
        split_ifs with h0
        · rfl
        · rw [not_not] at h0
          rw [h0]
          simp
      rw [hmaps, sum_div_cast]

/-- Claim C10: a record whose target is the origin address is always
direction `"IN"` (the incoming check has precedence, also on
self-transfers); `"OUT"` is assigned only when the sender matches and the
target does not; and every row of `process_data` is built from one of its
input records by this rule. -/
theorem process_direction_in_precedence :
    (∀ origin tx, tx.target = some origin → direction origin tx = "IN") ∧
    (∀ origin tx, direction origin tx = "OUT" →
      tx.sender = some origin ∧ tx.target ≠ some origin) ∧
    (∀ txs origin parse r, r ∈ (process_data txs origin parse).1 →
      ∃ tx ∈ txs, ∃ t, r = mkRow origin tx t) := by
  refine ⟨fun origin tx h => (direction_in_iff origin tx).2 h,
    fun origin tx h => (direction_out_iff origin tx).1 h,
    fun txs origin parse r hr => ?_⟩
  rcases (process_data_mem txs origin parse r).1 hr with ⟨p, hp, rfl⟩
  simp only [keptTxs, List.mem_filterMap] at hp
  rcases hp with ⟨tx, htx, hmap⟩
  rcases Option.map_eq_some'.mp hmap with ⟨t, hbind, hpt⟩
  subst hpt
  exact ⟨tx, htx, t, rfl⟩

/-- Witness for C10 at a concrete self-describing record. -/
theorem process_direction_in_precedence_witness :
    direction "X" txX = "IN" :=
  process_direction_in_precedence.1 "X" txX rfl

/-- Claim C8: empty raw input yields an empty table and all-zero metrics
from `process_data`, and an empty combined table yields the empty summary
from `calculate_daily_summary` — in every mode, with no error. -/
theorem empty_input_empty_output :
    (∀ origin parse, process_data [] origin parse = ([], ⟨0, 0, 0⟩)) ∧
    (∀ addresses dateOf, calculate_daily_summary [] addresses dateOf = Summary.empty) :=
  ⟨fun _ _ => rfl, fun _ _ => rfl⟩

/-! ### Helper lemmas about rounding and the summary modes -/

/-- Rounding `round6` is the identity on exact multiples of one micro-unit — in
particular on every raw amount and every sum of raw amounts. -/
theorem round6_int_div (m : ℤ) : round6 ((m : ℚ) / 1000000) = (m : ℚ) / 1000000 := by
  unfold round6
  rw [div_mul_cancel₀]
  · rw [round_intCast]
  · norm_num

/-- Evaluation rule for `round6` through integer division, used to compute
concrete rounded values. -/
theorem round6_of_eq (q : ℚ) (n : ℤ) (d : ℕ)
    (h : q * 1000000 + 1 / 2 = (n : ℚ) / (d : ℚ)) :
    round6 q = ((n / (d : ℤ) : ℤ) : ℚ) / 1000000 := by
  unfold round6
  rw [round_eq, h, Rat.floor_intCast_div_natCast]

/-- A sum of micro-unit multiples is a micro-unit multiple. -/
theorem sum_mul_div (l : List ℚ) (h : ∀ q ∈ l, ∃ m : ℤ, q = (m : ℚ) / 1000000) :
    ∃ M : ℤ, l.sum = (M : ℚ) / 1000000 := by
  induction l with
  | nil => exact ⟨0, by simp⟩
  | cons a t ih =>
    rcases h a (List.mem_cons_self a t) with ⟨m, hm⟩
    rcases ih (fun q hq => h q (List.mem_cons_of_mem a hq)) with ⟨M, hM⟩
    refine ⟨m + M, ?_⟩
    rw [List.sum_cons, hm, hM, Int.cast_add, add_div]

/-- When every amount of the table is a micro-unit multiple, so is the
incoming sum over any of its sub-groups. -/
theorem sumIncoming_div (rows g : List Row)
    (hsub : ∀ r ∈ g, r ∈ rows)
    (hq : ∀ r ∈ rows, ∃ m : ℤ, r.amountXTZ = (m : ℚ) / 1000000) :
    ∃ M : ℤ, sumIncoming g = (M : ℚ) / 1000000 := by
  refine sum_mul_div ((g.filter (fun r => r.direction = "IN")).map Row.amountXTZ) ?_
  intro q hqmem
  rcases List.mem_map.mp hqmem with ⟨r, hrg, rfl⟩
  exact hq r (hsub r (List.mem_filter.mp hrg).1)

/-! ### Claim theorems: the daily summary -/

/-- Claim C1 evaluation at the failing input: two addresses `"A"` and `"B"`
with one incoming 1-XTZ transaction each on the same day.  The per-address
`TOTAL` rows carry the correct counts (their sum is 2, equal to the sum of
the per-day counts), but the `GRAND TOTAL` row the code emits has every
numeric field equal to 0, because `df.agg(Transactions=('Hash', 'count'),
...)` names the aggregations in the result's index while
`.get('Transactions', pd.Series([0]))` looks the names up among the
columns and always falls back to its default. -/
theorem multi_grand_total_zero_eval :
    calculate_daily_summary [rA, rB] ["A", "B"] dOne =
      Summary.multi (multiDayRows dOne [rA, rB] ++ addressTotalRows [rA, rB] ++
        [grandTotalRow]) ∧
    ((multiDayRows dOne [rA, rB]).map MultiRow.transactions).sum = 2 ∧
    ((addressTotalRows [rA, rB]).map MultiRow.transactions).sum = 2 ∧
    grandTotalRow.transactions = 0 ∧ grandTotalRow.recv = 0 ∧ grandTotalRow.sent = 0 :=
  ⟨rfl, by decide, by decide, rfl, rfl, rfl⟩

/-- Claim C2 counterexample: two 1-mutez incoming transactions on two
different days.  Each day row has `FeeCut = 0.000001` and
`TotalVolume = 0.000033`; the `TOTAL` row has `FeeCut = 0.000002` and
`TotalVolume = 0.000066`, while `round6(FeeCut / 0.03) = 0.000067` — the
`TOTAL` row misses `FeeCut / 0.03` by more than half an ulp of the
6-decimal rounding, because it sums the already rounded per-day volumes. -/
theorem fee_total_volume_counterexample :
    calculate_daily_summary [rd1, rd2] [mpFeesAddress] dTwo =
      Summary.fee (feeDayRows dTwo [rd1, rd2] ++ [feeTotalRow dTwo [rd1, rd2]]) ∧
    (feeTotalRow dTwo [rd1, rd2]).cut = 2 / 1000000 ∧
    (feeTotalRow dTwo [rd1, rd2]).volume = 66 / 1000000 ∧
    round6 ((feeTotalRow dTwo [rd1, rd2]).cut / (3 / 100)) = 67 / 1000000 ∧
    ¬ |(feeTotalRow dTwo [rd1, rd2]).volume -
        (feeTotalRow dTwo [rd1, rd2]).cut / (3 / 100)| ≤ 1 / 2000000 := by
  have hc1 : round6 ((1000000 : ℚ)⁻¹) = 1000000⁻¹ := by
    rw [round6_of_eq _ 3 2 (by norm_num)]
    norm_num
  have hv1 : round6 ((1000000 : ℚ)⁻¹ / (3 / 100)) = 33 / 1000000 := by
    rw [round6_of_eq _ 203 6 (by norm_num)]
    norm_num
  have hday : feeDayRows dTwo [rd1, rd2] =
      [⟨"d0", 1, 1 / 1000000, 33 / 1000000⟩, ⟨"d1", 1, 1 / 1000000, 33 / 1000000⟩] := by
    simp [feeDayRows, sumIncoming, rd1, rd2, dTwo, hc1, hv1]
  have hc2 : round6 ((1000000 : ℚ)⁻¹ + 1000000⁻¹) = 2 / 1000000 := by
    rw [round6_of_eq _ 5 2 (by norm_num)]
    norm_num
  have hv2 : round6 ((33 : ℚ) / 1000000 + 33 / 1000000) = 66 / 1000000 := by
    rw [round6_of_eq _ 133 2 (by norm_num)]
    norm_num
  have htot : feeTotalRow dTwo [rd1, rd2] = ⟨"TOTAL", 2, 2 / 1000000, 66 / 1000000⟩ := by
    simp [feeTotalRow, hday, hc2, hv2]
  refine ⟨?_, ?_, ?_, ?_, ?_⟩
  · unfold calculate_daily_summary
    rw [if_neg (by simp), if_pos rfl, if_neg (by simp [feeDayRows, List.dedup_eq_nil])]
  · rw [htot]
  · rw [htot]
  · rw [htot]
    rw [round6_of_eq _ 403 6 (by norm_num)]
    norm_num
  · rw [htot]
    dsimp only
    rw [abs_le]
    norm_num

/-- Claim C2 (amended): in fee-derived-volume mode, when every amount of
the combined table is an exact micro-unit multiple (as every amount
produced by `process_data` is), every day row satisfies
`TotalVolume = round6(FeeCut / 0.03)`; the appended `TOTAL` row instead
carries the rounded sum of the per-day `TotalVolume` values, which need not
equal `round6(FeeCut / 0.03)` of its own `FeeCut`. -/
theorem fee_day_rows_volume (dateOf : Int → String) (rows : List Row)
    (hq : ∀ r ∈ rows, ∃ m : ℤ, r.amountXTZ = (m : ℚ) / 1000000) :
    (∀ dr ∈ feeDayRows dateOf rows, dr.volume = round6 (dr.cut / (3 / 100))) ∧
    (feeTotalRow dateOf rows).volume =
      round6 (((feeDayRows dateOf rows).map FeeRow.volume).sum) ∧
    (rows ≠ [] → calculate_daily_summary rows [mpFeesAddress] dateOf =
      Summary.fee (feeDayRows dateOf rows ++ [feeTotalRow dateOf rows])) := by
  refine ⟨?_, rfl, ?_⟩
  · intro dr hdr
    rcases List.mem_map.mp hdr with ⟨d, hd, rfl⟩
    dsimp only
    obtain ⟨M, hM⟩ := sumIncoming_div rows (rows.filter (fun r => dateOf r.ts = d))
      (fun r hr => (List.mem_filter.mp hr).1) hq
    rw [hM, round6_int_div]
  · intro hne
    obtain ⟨a, t, rfl⟩ : ∃ a t, rows = a :: t := by
      cases rows with
      | nil => exact absurd rfl hne
      | cons a t => exact ⟨a, t, rfl⟩
    unfold calculate_daily_summary
    rw [if_neg (by simp), if_pos rfl, if_neg ?_]
    simp [feeDayRows, List.dedup_eq_nil]

/-- Witness for the amended C2 on a one-transaction table. -/
theorem fee_day_rows_volume_witness :
    calculate_daily_summary [rd1] [mpFeesAddress] dTwo =
      Summary.fee (feeDayRows dTwo [rd1] ++ [feeTotalRow dTwo [rd1]]) ∧
    fr1.volume = round6 (fr1.cut / (3 / 100)) := by
  have hq : ∀ r ∈ [rd1], ∃ m : ℤ, r.amountXTZ = (m : ℚ) / 1000000 := by
    intro r hr
    rw [List.mem_singleton] at hr
    subst hr
    exact ⟨1, by norm_num [rd1]⟩
  have hc1 : round6 ((1000000 : ℚ)⁻¹) = 1000000⁻¹ := by
    rw [round6_of_eq _ 3 2 (by norm_num)]
    norm_num
  have hv1 : round6 ((1000000 : ℚ)⁻¹ / (3 / 100)) = 33 / 1000000 := by
    rw [round6_of_eq _ 203 6 (by norm_num)]
    norm_num
  have hday : feeDayRows dTwo [rd1] = [fr1] := by
    simp [feeDayRows, sumIncoming, rd1, dTwo, fr1, hc1, hv1]
  exact ⟨(fee_day_rows_volume dTwo [rd1] hq).2.2 (by simp),
    (fee_day_rows_volume dTwo [rd1] hq).1 fr1
      (by rw [hday]; exact List.mem_cons_self _ _)⟩

end Tzkt
